import Mathlib

/-!
Shallow embedding of the connection-management and wire-protocol core of the
reql driver (src/commands/io/mod.rs), together with theorems settling the
frozen claims about its specification.

Modelling conventions:
* Rust `std::time::Duration` is a pair of a seconds count (`u64` in Rust,
  `Nat` here, kept below `2^64` where it matters) and a nanoseconds count
  (`u32` in Rust, always `< 10^9`); its derived `Ord` is lexicographic.
* `OrderMap` is embedded as an association list with insert-or-replace.
* Global registries (`CONFIG`, `POOL`) become an explicit `RegState` record
  threaded through the functions that touch them.
* Fallible Rust functions returning `Result<T>` become `Except Error T`.
* External effects (DNS resolution, TCP latency probing, r2d2 pool
  construction, the mpsc channel contents) are oracles passed in explicitly,
  so every definition stays executable.
-/

/-- The error variants used by this file: `DriverError::Other(msg)` and
`io::Error` of kind `Other` carrying a message (`io_error` in the source). -/
inductive Error where
  | driverOther (msg : String)
  | ioErr (msg : String)
deriving DecidableEq, Repr

/-- Rust `std::time::Duration`: seconds plus sub-second nanoseconds. -/
structure Duration where
  secs : Nat
  nanos : Nat
deriving DecidableEq, Repr

/-- `u64::max_value()`. -/
def u64max : Nat := 18446744073709551615

namespace Duration

/-- Rust `Duration::from_millis`: `secs = millis / 1000`,
`nanos = (millis % 1000) * 1_000_000`. -/
def fromMillis (millis : Nat) : Duration :=
  ⟨millis / 1000, millis % 1000 * 1000000⟩

/-- Rust `Duration::MAX`: `u64::MAX` seconds plus `10^9 - 1` nanoseconds,
the maximum representable duration. -/
def maxDuration : Duration := ⟨u64max, 999999999⟩

/-- The derived lexicographic `Ord` on Rust `Duration`. -/
def cmp (a b : Duration) : Ordering :=
  match compare a.secs b.secs with
  | .eq => compare a.nanos b.nanos
  | o => o

/-- The derived `PartialEq` on Rust `Duration`. -/
def beq (a b : Duration) : Bool :=
  a.secs == b.secs && a.nanos == b.nanos

theorem beq_iff (a b : Duration) : beq a b = true ↔ a = b := by
  cases a; cases b
  simp [beq, Duration.mk.injEq, and_comm]

theorem cmp_eq_iff (a b : Duration) : cmp a b = .eq ↔ a = b := by
  cases a with
  | mk as an =>
    cases b with
    | mk bs bn =>
      simp only [cmp, Duration.mk.injEq]
      rcases Nat.lt_trichotomy as bs with h | h | h
      · simp [Nat.compare_eq_lt.mpr h]; omega
      · subst h
        have hself : compare as as = .eq := Nat.compare_eq_eq.mpr rfl
        simp [hself, Nat.compare_eq_eq]
      · simp [Nat.compare_eq_gt.mpr h]; omega

/-- Strict lexicographic order on durations (what `a < b` means in Rust). -/
def ltd (a b : Duration) : Prop :=
  a.secs < b.secs ∨ (a.secs = b.secs ∧ a.nanos < b.nanos)

instance (a b : Duration) : Decidable (ltd a b) := by
  unfold ltd; infer_instance

theorem cmp_lt_iff (a b : Duration) : cmp a b = .lt ↔ ltd a b := by
  cases a with
  | mk as an =>
    cases b with
    | mk bs bn =>
      simp only [cmp, ltd]
      rcases Nat.lt_trichotomy as bs with h | h | h
      · simp [Nat.compare_eq_lt.mpr h, h]
      · subst h
        have hself : compare as as = .eq := Nat.compare_eq_eq.mpr rfl
        simp [hself, Nat.compare_eq_lt]
      · have h1 : ¬ as < bs := by omega
        have h2 : as ≠ bs := by omega
        simp [Nat.compare_eq_gt.mpr h, h1, h2]

end Duration

/-- A resolved socket address (opaque to this core; only its identity
matters for the latency prober and cluster bookkeeping). -/
abbrev SocketAddr := Nat

/-- One cluster node: name, candidate addresses, measured latency. -/
structure Server where
  name : String
  addresses : List SocketAddr
  latency : Duration
deriving DecidableEq, Repr

namespace Server

/-- `Server::new`: latency starts at `Duration::from_millis(u64::max_value())`. -/
def new (host : String) (addresses : List SocketAddr) : Server :=
  { name := host, addresses := addresses
    latency := Duration.fromMillis u64max }

/-- `impl Ord for Server`: compares only the `latency` fields. -/
def cmpServer (a b : Server) : Ordering :=
  a.latency.cmp b.latency

/-- `impl PartialEq for Server`: `self.latency == other.latency`. -/
def eqServer (a b : Server) : Bool :=
  a.latency.beq b.latency

/-- `Server::set_latency`: walk the address list in order; on the first
address the probe oracle reports reachable, record the measured elapsed
time and stop; if none succeeds the latency is left unchanged. -/
def setLatencyLoop (probe : SocketAddr → Option Duration) :
    List SocketAddr → Server → Server
  | [], s => s
  | a :: rest, s =>
    match probe a with
    | some d => { s with latency := d }
    | none => setLatencyLoop probe rest s

/-- `Server::set_latency` entry point (iterates `self.addresses`). -/
def setLatency (probe : SocketAddr → Option Duration) (s : Server) : Server :=
  setLatencyLoop probe s.addresses s

end Server

/-- C7: the `Server` order is decided purely by latency: `cmp` orders by the
latency fields (strictly smaller latency sorts strictly earlier, independent
of name or addresses), and two servers are `==`-equal (and compare `Equal`)
exactly when their latencies are equal, names notwithstanding. -/
theorem server_order_is_latency_only (s t : Server)
    (hlt : Duration.ltd s.latency t.latency) (u v : Server)
    (heq : u.latency = v.latency) :
    Server.cmpServer s t = .lt ∧
    Server.cmpServer u v = .eq ∧
    Server.eqServer u v = true ∧
    (∀ a b : Server, Server.cmpServer a b = a.latency.cmp b.latency) ∧
    (∀ a b : Server, Server.eqServer a b = true ↔ a.latency = b.latency) := by
  refine ⟨?_, ?_, ?_, fun a b => rfl, fun a b => Duration.beq_iff _ _⟩
  · exact (Duration.cmp_lt_iff _ _).mpr hlt
  · exact (Duration.cmp_eq_iff _ _).mpr heq
  · exact (Duration.beq_iff _ _).mpr heq

/-- Witness for C7 at concrete servers: distinct names, the order still only
sees the latencies. -/
theorem server_order_is_latency_only_spot :
    Server.cmpServer ⟨"a", [], ⟨1, 0⟩⟩ ⟨"b", [], ⟨2, 0⟩⟩ = .lt ∧
    Server.cmpServer ⟨"x", [0], ⟨5, 7⟩⟩ ⟨"y", [], ⟨5, 7⟩⟩ = .eq ∧
    Server.eqServer ⟨"x", [0], ⟨5, 7⟩⟩ ⟨"y", [], ⟨5, 7⟩⟩ = true := by
  have h := server_order_is_latency_only ⟨"a", [], ⟨1, 0⟩⟩ ⟨"b", [], ⟨2, 0⟩⟩
    (by decide) ⟨"x", [0], ⟨5, 7⟩⟩ ⟨"y", [], ⟨5, 7⟩⟩ rfl
  exact ⟨h.1, h.2.1, h.2.2.1⟩

/-- C8 counterexample: a freshly constructed `Server`'s latency is
`Duration::from_millis(u64::MAX)`, which is NOT the maximum representable
duration (`Duration::MAX` = `u64::MAX` seconds + `999_999_999` ns): it is
strictly smaller. -/
theorem server_new_latency_not_max :
    (Server.new "localhost" []).latency ≠ Duration.maxDuration ∧
    Duration.cmp (Server.new "localhost" []).latency Duration.maxDuration = .lt := by
  exact ⟨by decide, by decide⟩

/-- C8 amended: for every host and address list, `Server::new` sets the
latency to the fixed sentinel `Duration::from_millis(u64::MAX)` — a very
large value, but strictly below the maximum representable duration. -/
theorem server_new_latency_sentinel (host : String) (addrs : List SocketAddr) :
    (Server.new host addrs).latency = Duration.fromMillis u64max ∧
    Duration.ltd (Duration.fromMillis u64max) Duration.maxDuration := by
  exact ⟨rfl, by decide⟩

/-- The protocol's query-type enumeration (`ql2`'s `Query_QueryType`). -/
inductive QueryType where
  | START
  | CONTINUE
  | STOP
  | NOREPLY_WAIT
  | SERVER_INFO
deriving DecidableEq, Repr

/-- `ProtobufEnum::value` for `Query_QueryType`. -/
def QueryType.value : QueryType → Nat
  | .START => 1
  | .CONTINUE => 2
  | .STOP => 3
  | .NOREPLY_WAIT => 4
  | .SERVER_INFO => 5

/-- Decimal digits of a natural number, as the characters Rust's integer
`Display` would produce (Rust `String`s are embedded as `List Char`). -/
def natChars (n : Nat) : List Char :=
  (toString n).data

/-- `wrap_query`: start from `"[<code>"`, append `",<query>"` if the term is
present, append `",<options>"` if the options are present, close with `"]"`. -/
def wrap_query (query_type : QueryType) (query options : Option (List Char)) :
    List Char :=
  let qry := '[' :: natChars query_type.value
  let qry := match query with
    | some q => qry ++ ',' :: q
    | none => qry
  let qry := match options with
    | some o => qry ++ ',' :: o
    | none => qry
  qry ++ [']']

/-- Reference positional decoder: split a character list at every comma. -/
def splitCommas : List Char → List (List Char)
  | [] => [[]]
  | c :: rest =>
    if c = ',' then [] :: splitCommas rest
    else
      match splitCommas rest with
      | [] => [[c]]
      | g :: gs => (c :: g) :: gs

/-- Reference positional decoder for the envelope: strip the leading `[` and
the trailing `]`, then split the interior at commas. -/
def decodeEnvelope (s : List Char) : Option (List (List Char)) :=
  match s with
  | '[' :: rest =>
    if rest.getLast? = some ']' then some (splitCommas rest.dropLast) else none
  | _ => none

theorem splitCommas_nonempty (l : List Char) : splitCommas l ≠ [] := by
  induction l with
  | nil => simp [splitCommas]
  | cons c rest ih =>
    simp only [splitCommas]
    by_cases h : c = ','
    · simp [h]
    · simp only [if_neg h]
      cases hs : splitCommas rest with
      | nil => simp
      | cons g gs => simp

theorem splitCommas_no_comma (l : List Char) (h : ',' ∉ l) :
    splitCommas l = [l] := by
  induction l with
  | nil => rfl
  | cons c rest ih =>
    have hc : ¬ c = ',' := fun hcc => h (hcc ▸ List.mem_cons_self c rest)
    have hr : ',' ∉ rest := fun hm => h (List.mem_cons_of_mem c hm)
    simp only [splitCommas, if_neg hc, ih hr]

theorem splitCommas_append (l r : List Char) (h : ',' ∉ l) :
    splitCommas (l ++ ',' :: r) = l :: splitCommas r := by
  induction l with
  | nil => simp [splitCommas]
  | cons c rest ih =>
    have hc : ¬ c = ',' := fun hcc => h (hcc ▸ List.mem_cons_self c rest)
    have hr : ',' ∉ rest := fun hm => h (List.mem_cons_of_mem c hm)
    simp only [List.cons_append, List.append_eq, splitCommas, if_neg hc,
      ih hr]

theorem decodeEnvelope_bracketed (interior : List Char) :
    decodeEnvelope ('[' :: (interior ++ [']'])) =
      some (splitCommas interior) := by
  simp only [decodeEnvelope]
  rw [List.getLast?_append_cons interior ']' []]
  simp [List.dropLast_concat]

/-- C5: the envelope encoder emits exactly `[Q]`, `[Q,T]`, or `[Q,T,O]`
depending on which of the term and options are present (comma-joined, no
trailing comma), and the reference positional decoder recovers the pieces
(for comma-free term/options payloads). -/
theorem wrap_query_envelope_shape (qt : QueryType) (T O : List Char)
    (hT : ',' ∉ T) (hO : ',' ∉ O) :
    wrap_query qt none none = '[' :: natChars qt.value ++ [']'] ∧
    wrap_query qt (some T) none =
      '[' :: natChars qt.value ++ ',' :: T ++ [']'] ∧
    wrap_query qt (some T) (some O) =
      '[' :: natChars qt.value ++ ',' :: T ++ ',' :: O ++ [']'] ∧
    decodeEnvelope (wrap_query qt none none) = some [natChars qt.value] ∧
    decodeEnvelope (wrap_query qt (some T) none) =
      some [natChars qt.value, T] ∧
    decodeEnvelope (wrap_query qt (some T) (some O)) =
      some [natChars qt.value, T, O] := by
  have hv : ',' ∉ natChars qt.value := by cases qt <;> decide
  have e0 : wrap_query qt none none = '[' :: (natChars qt.value ++ [']']) := by
    simp [wrap_query]
  have e1 : wrap_query qt (some T) none =
      '[' :: ((natChars qt.value ++ ',' :: T) ++ [']']) := by
    simp [wrap_query, List.append_assoc]
  have e2 : wrap_query qt (some T) (some O) =
      '[' :: ((natChars qt.value ++ ',' :: (T ++ ',' :: O)) ++ [']']) := by
    simp [wrap_query, List.append_assoc]
  refine ⟨by simpa using e0, by simpa [List.append_assoc] using e1,
    by simpa [List.append_assoc] using e2, ?_, ?_, ?_⟩
  · rw [e0]
    have := decodeEnvelope_bracketed (natChars qt.value)
    rw [this, splitCommas_no_comma _ hv]
  · rw [e1]
    have ha : natChars qt.value ++ ',' :: T =
        natChars qt.value ++ ',' :: T := rfl
    rw [decodeEnvelope_bracketed, splitCommas_append _ _ hv,
      splitCommas_no_comma _ hT]
  · rw [e2, decodeEnvelope_bracketed, splitCommas_append _ _ hv,
      splitCommas_append _ _ hT, splitCommas_no_comma _ hO]

/-- Witness for C5 at a concrete query type, term and options. -/
theorem wrap_query_envelope_shape_spot :
    wrap_query .START (some ['a']) (some ['b']) =
      ['[', '1', ',', 'a', ',', 'b', ']'] ∧
    decodeEnvelope (wrap_query .START (some ['a']) (some ['b'])) =
      some [['1'], ['a'], ['b']] := by
  have h := wrap_query_envelope_shape .START ['a'] ['b']
    (by decide) (by decide)
  exact ⟨by simpa using h.2.2.1, by simpa using h.2.2.2.2.2⟩

/-- C10: the envelope encoder is not injective — an options-only call and a
term-only call with the same payload produce byte-identical envelopes
`[Q,S]`, so the two are indistinguishable on the wire. -/
theorem wrap_query_not_injective (qt : QueryType) (s : List Char) :
    wrap_query qt none (some s) = wrap_query qt (some s) none ∧
    wrap_query qt none (some s) =
      '[' :: natChars qt.value ++ ',' :: s ++ [']'] := by
  constructor
  · simp [wrap_query]
  · simp [wrap_query, List.append_assoc]

/-- One outcome of polling the mpsc receiver: `Ok(NotReady)`,
`Ok(Ready(Some(res)))` with `res : Result<item, Error>`, or `Err(_)` (the
receiver's own poll failure).  `Ok(Ready(None))` — channel exhausted — is
modelled by the script running out. -/
inductive RxStep (α : Type) where
  | notReady
  | item (res : Except Error α)
  | pollFailure
deriving Repr

/-- The `Response<T>` stream: the `done` latch plus the receiver, embedded
as the script of what the remaining channel polls would return. -/
structure Response (α : Type) where
  done : Bool
  rx : List (RxStep α)
deriving Repr

/-- Result of one `Stream::poll` on a `Response<T>`:
`Ok(Async::NotReady)`, `Ok(Async::Ready(Some(item)))`,
`Ok(Async::Ready(None))`, or `Err(error)`. -/
inductive PollRes (α : Type) where
  | notReady
  | readySome (a : α)
  | readyNone
  | errRes (e : Error)
deriving Repr

/-- `impl Stream for Response<T>::poll`, returning the poll result and the
updated stream state (each non-latched poll consumes one channel event). -/
def Response.poll {α : Type} (r : Response α) : PollRes α × Response α :=
  if r.done then (.readyNone, r)
  else
    match r.rx with
    | [] => (.readyNone, { done := true, rx := [] })
    | .notReady :: rest => (.notReady, { r with rx := rest })
    | .item (.ok data) :: rest => (.readySome data, { r with rx := rest })
    | .item (.error e) :: rest => (.errRes e, { r with rx := rest })
    | .pollFailure :: rest =>
      (.errRes (.driverOther "an error occured while processing the stream"),
        { done := true, rx := rest })

/-- C2 counterexample: an error item delivered through the channel does NOT
latch `done`: after yielding the error, the very next poll reads the channel
again and yields a further item, instead of the terminal "no more items". -/
theorem response_error_item_does_not_latch :
    (Response.poll ⟨false, [.item (.error (.driverOther "boom")),
        .item (.ok (7 : Nat))]⟩).1 =
      .errRes (.driverOther "boom") ∧
    (Response.poll ⟨false, [.item (.error (.driverOther "boom")),
        .item (.ok (7 : Nat))]⟩).2.done = false ∧
    (Response.poll (Response.poll ⟨false,
        [.item (.error (.driverOther "boom")),
         .item (.ok (7 : Nat))]⟩).2).1 = .readySome 7 := by
  exact ⟨rfl, rfl, rfl⟩

/-- C2 amended: once `done` is latched the stream returns the terminal "no
more items" forever without reading the channel; `done` is latched by normal
completion (channel exhausted) and by a receiver poll failure — but an error
item delivered through the channel is surfaced as a stream error with `done`
left unchanged (false), so it does not terminate the stream. -/
theorem response_poll_latch (α : Type) (r : Response α)
    (hdone : r.done = true) (q : Response α) (hq : q.done = false) :
    Response.poll r = (.readyNone, r) ∧
    (q.rx = [] → Response.poll q = (.readyNone, ⟨true, []⟩)) ∧
    (∀ rest, q.rx = .pollFailure :: rest →
      Response.poll q =
        (.errRes (.driverOther "an error occured while processing the stream"),
          ⟨true, rest⟩)) ∧
    (∀ e rest, q.rx = .item (.error e) :: rest →
      Response.poll q = (.errRes e, ⟨false, rest⟩)) := by
  refine ⟨?_, ?_, ?_, ?_⟩
  · simp [Response.poll, hdone]
  · intro hrx
    simp [Response.poll, hq, hrx]
  · intro rest hrx
    simp [Response.poll, hq, hrx]
  · intro e rest hrx
    cases q with
    | mk d rx =>
      simp only at hq hrx
      subst hq; subst hrx
      simp [Response.poll]

/-- Witness for C2's amended theorem at concrete streams. -/
theorem response_poll_latch_spot :
    Response.poll (⟨true, [.item (.ok (3 : Nat))]⟩ : Response Nat) =
      (.readyNone, ⟨true, [.item (.ok 3)]⟩) ∧
    Response.poll (⟨false, []⟩ : Response Nat) = (.readyNone, ⟨true, []⟩) ∧
    Response.poll (⟨false, [.item (.error (.ioErr "e"))]⟩ : Response Nat) =
      (.errRes (.ioErr "e"), ⟨false, []⟩) := by
  have h1 := response_poll_latch Nat ⟨true, [.item (.ok 3)]⟩ rfl
    ⟨false, []⟩ rfl
  have h2 := response_poll_latch Nat ⟨true, []⟩ rfl
    ⟨false, [.item (.error (.ioErr "e"))]⟩ rfl
  exact ⟨h1.1, h1.2.1 rfl, h2.2.2.2 (.ioErr "e") [] rfl⟩

/-- A `Session` as the framing layer sees it: the per-session token `id`
and the `broken` flag.  (The TCP stream itself is embedded as the script of
sub-operation outcomes passed to each framing function.) -/
structure Session where
  id : Nat
  broken : Bool
deriving DecidableEq, Repr

/-- Outcomes of the four write sub-operations of one request frame:
write token, write length, write payload, flush. -/
structure WScript where
  wToken : Except String Unit
  wLen : Except String Unit
  wAll : Except String Unit
  wFlush : Except String Unit

/-- Outcomes of the three read sub-operations of one response frame:
read token, read length (also the length value), read payload (a byte
source; `read_exact` returns exactly `len` bytes drawn from it). -/
structure RScript where
  rToken : Except String Nat
  rLen : Except String Nat
  rBytes : Except String (Nat → Nat)

/-- `write_query`: write the 8-byte LE token, the 4-byte LE length, the
payload bytes, then flush; the first failing sub-operation sets `broken`,
returns the I/O error, and stops.  Also returns how many sub-operations
were attempted, so "no further sub-operation is performed" is visible. -/
def write_query (conn : Session) (sc : WScript) :
    Except Error Unit × Session × Nat :=
  match sc.wToken with
  | .error e => (.error (.ioErr e), { conn with broken := true }, 1)
  | .ok _ =>
  match sc.wLen with
  | .error e => (.error (.ioErr e), { conn with broken := true }, 2)
  | .ok _ =>
  match sc.wAll with
  | .error e => (.error (.ioErr e), { conn with broken := true }, 3)
  | .ok _ =>
  match sc.wFlush with
  | .error e => (.error (.ioErr e), { conn with broken := true }, 4)
  | .ok _ => (.ok (), conn, 4)

/-- `read_query`: read the 8-byte LE token, the 4-byte LE length, then
exactly `len` payload bytes; the first failing sub-operation sets `broken`,
returns the I/O error, and stops.  Also returns the attempted sub-operation
count. -/
def read_query (conn : Session) (sc : RScript) :
    Except Error (List Nat) × Session × Nat :=
  match sc.rToken with
  | .error e => (.error (.ioErr e), { conn with broken := true }, 1)
  | .ok _ =>
  match sc.rLen with
  | .error e => (.error (.ioErr e), { conn with broken := true }, 2)
  | .ok len =>
  match sc.rBytes with
  | .error e => (.error (.ioErr e), { conn with broken := true }, 3)
  | .ok src => (.ok ((List.range len).map src), conn, 3)

/-- C4: for both framing functions, an I/O failure in any sub-operation
sets `broken := true`, surfaces an I/O error, and performs no further
sub-operation (the attempted count stops at the failing one); when every
sub-operation succeeds the session — its `broken` flag included — is
returned unchanged. -/
theorem framing_failure_breaks_session (conn : Session) (sc : WScript)
    (rc : RScript) :
    (∀ e, sc.wToken = .error e →
      write_query conn sc = (.error (.ioErr e), { conn with broken := true }, 1)) ∧
    (∀ u e, sc.wToken = .ok u → sc.wLen = .error e →
      write_query conn sc = (.error (.ioErr e), { conn with broken := true }, 2)) ∧
    (∀ u v e, sc.wToken = .ok u → sc.wLen = .ok v → sc.wAll = .error e →
      write_query conn sc = (.error (.ioErr e), { conn with broken := true }, 3)) ∧
    (∀ u v w e, sc.wToken = .ok u → sc.wLen = .ok v → sc.wAll = .ok w →
      sc.wFlush = .error e →
      write_query conn sc = (.error (.ioErr e), { conn with broken := true }, 4)) ∧
    (∀ u v w x, sc.wToken = .ok u → sc.wLen = .ok v → sc.wAll = .ok w →
      sc.wFlush = .ok x → write_query conn sc = (.ok (), conn, 4)) ∧
    (∀ e, rc.rToken = .error e →
      read_query conn rc = (.error (.ioErr e), { conn with broken := true }, 1)) ∧
    (∀ t e, rc.rToken = .ok t → rc.rLen = .error e →
      read_query conn rc = (.error (.ioErr e), { conn with broken := true }, 2)) ∧
    (∀ t len e, rc.rToken = .ok t → rc.rLen = .ok len → rc.rBytes = .error e →
      read_query conn rc = (.error (.ioErr e), { conn with broken := true }, 3)) ∧
    (∀ t len src, rc.rToken = .ok t → rc.rLen = .ok len → rc.rBytes = .ok src →
      read_query conn rc = (.ok ((List.range len).map src), conn, 3)) := by
  refine ⟨fun e h1 => by simp [write_query, h1],
    fun u e h1 h2 => by simp [write_query, h1, h2],
    fun u v e h1 h2 h3 => by simp [write_query, h1, h2, h3],
    fun u v w e h1 h2 h3 h4 => by simp [write_query, h1, h2, h3, h4],
    fun u v w x h1 h2 h3 h4 => by simp [write_query, h1, h2, h3, h4],
    fun e h1 => by simp [read_query, h1],
    fun t e h1 h2 => by simp [read_query, h1, h2],
    fun t len e h1 h2 h3 => by simp [read_query, h1, h2, h3],
    fun t len src h1 h2 h3 => by simp [read_query, h1, h2, h3]⟩

/-- Witness for C4 at a concrete session and scripts: a failing length
write breaks the session after two attempted sub-operations; an all-success
read leaves `broken` as it was. -/
theorem framing_failure_breaks_session_spot :
    write_query ⟨42, false⟩ ⟨.ok (), .error "pipe closed", .ok (), .ok ()⟩ =
      (.error (.ioErr "pipe closed"), ⟨42, true⟩, 2) ∧
    read_query ⟨42, false⟩ ⟨.ok 9, .ok 2, .ok (fun _ => 0)⟩ =
      (.ok [0, 0], ⟨42, false⟩, 3) := by
  have h := framing_failure_breaks_session ⟨42, false⟩
    ⟨.ok (), .error "pipe closed", .ok (), .ok ()⟩
    ⟨.ok 9, .ok 2, .ok (fun _ => 0)⟩
  refine ⟨h.2.1 () "pipe closed" rfl rfl, ?_⟩
  have h9 := h.2.2.2.2.2.2.2.2 9 2 (fun _ => 0) rfl rfl rfl
  simpa using h9

/-- The protobuf `Datum::DatumType` tags. -/
inductive DatumType where
  | R_NULL
  | R_BOOL
  | R_NUM
  | R_STR
  | R_ARRAY
  | R_OBJECT
  | R_JSON
deriving DecidableEq, Repr

/-- A protobuf `Datum` as the option-resolution code reads it: the type tag
plus the scalar payload fields.  Protobuf field accessors return the field's
default (`""` / `false`) when the field is unset, with no type checking:
`take_r_str` and `get_r_bool` read `r_str` / `r_bool` regardless of `dtype`.
(The numeric/array/object payloads are never read by this core's option
resolution and are omitted.) -/
structure Datum where
  dtype : DatumType
  r_str : String := ""
  r_bool : Bool := false
deriving DecidableEq, Repr

/-- A compiled term tree: an optional datum payload, positional arguments,
and keyed optional arguments. -/
inductive Term where
  | node (datum : Option Datum) (args : List Term)
      (optargs : List (String × Term))
deriving Repr

/-- The keyed optional arguments of a term. -/
def Term.optargs : Term → List (String × Term)
  | .node _ _ o => o

mutual

/-- `find_datum`: if the term carries a datum, that datum alone; otherwise
the datums found in its positional arguments, in order (optional arguments
are not searched). -/
def find_datum : Term → List Datum
  | .node (some d) _ _ => [d]
  | .node none args _ => findDatumList args

def findDatumList : List Term → List Datum
  | [] => []
  | t :: ts => find_datum t ++ findDatumList ts

end

/-- `take_string`: return the `r_str` field of the first datum, if any;
error (naming the key) only when there is no datum at all. -/
def take_string (key : String) (val : List Datum) : Except Error String :=
  match val with
  | d :: _ => .ok d.r_str
  | [] => .error (.driverOther ("`" ++ key ++ "` must be a string"))

/-- `take_bool`: return the `r_bool` field of the first datum, if any;
error (naming the key) only when there is no datum at all. -/
def take_bool (key : String) (val : List Datum) : Except Error Bool :=
  match val with
  | d :: _ => .ok d.r_bool
  | [] => .error (.driverOther ("`" ++ key ++ "` must be a boolean"))

/-- Per-connection logical options (`Opts`). -/
structure Opts where
  db : String
  user : String
  password : String
  retries : Nat
  reproducible : Bool
  tls : Option Unit
deriving DecidableEq, Repr

/-- `impl Default for Opts`. -/
def Opts.defaultOpts : Opts :=
  { db := "test", user := "admin", password := "", retries := 5
    reproducible := false, tls := none }

/-- Opaque handles: a `Connection` (UUID), an r2d2 pool, a tokio `Remote`,
a logger. -/
abbrev Connection := Nat

abbrev Pool := Nat

abbrev Remote := Nat

abbrev Logger := Nat

/-- Per-connection `Config` snapshot. -/
structure Config where
  cluster : List (String × Server)
  opts : Opts
  remote : Remote
  logger : Logger
deriving DecidableEq, Repr

/-- `OrderMap` lookup on an association list. -/
def omLookup {κ β : Type} [DecidableEq κ] (m : List (κ × β)) (k : κ) :
    Option β :=
  match m with
  | [] => none
  | (k', v) :: rest => if k' = k then some v else omLookup rest k

/-- `OrderMap::insert`: replace in place if the key exists, else append. -/
def omInsert {κ β : Type} [DecidableEq κ] (m : List (κ × β)) (k : κ) (v : β) :
    List (κ × β) :=
  match m with
  | [] => [(k, v)]
  | (k', v') :: rest =>
    if k' = k then (k', v) :: rest else (k', v') :: omInsert rest k v

/-- `OrderMap::get_mut` followed by in-place mutation: apply `f` at `k` if
present, leave the map unchanged otherwise. -/
def omUpdate {κ β : Type} [DecidableEq κ] (m : List (κ × β)) (k : κ)
    (f : β → β) : List (κ × β) :=
  match m with
  | [] => []
  | (k', v) :: rest =>
    if k' = k then (k', f v) :: rest else (k', v) :: omUpdate rest k f

theorem omLookup_insert {κ β : Type} [DecidableEq κ] (m : List (κ × β))
    (k : κ) (v : β) : omLookup (omInsert m k v) k = some v := by
  induction m with
  | nil => simp [omInsert, omLookup]
  | cons p rest ih =>
    by_cases h : p.1 = k
    · simp [omInsert, omLookup, h]
    · simp [omInsert, omLookup, h, ih]

theorem omLookup_update {κ β : Type} [DecidableEq κ] (m : List (κ × β))
    (k : κ) (f : β → β) :
    omLookup (omUpdate m k f) k = (omLookup m k).map f := by
  induction m with
  | nil => simp [omUpdate, omLookup]
  | cons p rest ih =>
    obtain ⟨k', v⟩ := p
    by_cases h : k' = k
    · subst h
      simp [omUpdate, omLookup]
    · simp [omUpdate, omLookup, h, ih]

theorem omLookup_update_ne {κ β : Type} [DecidableEq κ] (m : List (κ × β))
    (k k' : κ) (f : β → β) (h : k' ≠ k) :
    omLookup (omUpdate m k f) k' = omLookup m k' := by
  induction m with
  | nil => simp [omUpdate, omLookup]
  | cons p rest ih =>
    obtain ⟨ka, v⟩ := p
    by_cases hp : ka = k
    · subst hp
      have hne : ¬ ka = k' := fun hc => h hc.symm
      simp [omUpdate, omLookup, hne]
    · by_cases hp' : ka = k'
      · simp [omUpdate, omLookup, h, hp, hp']
      · simp [omUpdate, omLookup, hp, hp', ih]

/-- The process-wide registries: `CONFIG` and `POOL`, keyed by connection
handle. -/
structure RegState where
  config : List (Connection × Config)
  pool : List (Connection × Pool)
deriving DecidableEq, Repr

/-- The `servers` option: each datum in the value list is taken as one host
string via `take_string` on a singleton. -/
def serversFromVal (key : String) : List Datum → Except Error (List String)
  | [] => .ok []
  | d :: rest =>
    match take_string key [d] with
    | .error e => .error e
    | .ok s =>
      match serversFromVal key rest with
      | .error e => .error e
      | .ok ss => .ok (s :: ss)

/-- The option-resolution loop of `Connection::set_config`: walk the term's
optional arguments, filling `Opts` fields and collecting seed hosts;
unrecognised keys are skipped. -/
def resolveOptions : List (String × Term) → Opts → List String →
    Except Error (Opts × List String)
  | [], opts, hosts => .ok (opts, hosts)
  | (key, v) :: rest, opts, hosts =>
    let val := find_datum v
    if key = "db" then
      match take_string key val with
      | .error e => .error e
      | .ok s => resolveOptions rest { opts with db := s } hosts
    else if key = "user" then
      match take_string key val with
      | .error e => .error e
      | .ok s => resolveOptions rest { opts with user := s } hosts
    else if key = "password" then
      match take_string key val with
      | .error e => .error e
      | .ok s => resolveOptions rest { opts with password := s } hosts
    else if key = "reproducible" then
      match take_bool key val with
      | .error e => .error e
      | .ok b => resolveOptions rest { opts with reproducible := b } hosts
    else if key = "servers" then
      match serversFromVal key val with
      | .error e => .error e
      | .ok hs => resolveOptions rest opts (hosts ++ hs)
    else resolveOptions rest opts hosts

/-- `host.to_socket_addrs()` with the fallback re-resolution of
`"<host>:28015"`; the oracle `resolver` stands for the system resolver. -/
def resolveAddrs (resolver : String → Except String (List SocketAddr))
    (host : String) : Except String (List SocketAddr) :=
  match resolver host with
  | .ok a => .ok a
  | .error _ => resolver (host ++ ":28015")

/-- The cluster-building loop of `Connection::set_config`: resolve each seed
host and insert `Server::new(host, addresses)` into the cluster map. -/
def buildCluster (resolver : String → Except String (List SocketAddr)) :
    List String → List (String × Server) →
    Except String (List (String × Server))
  | [], acc => .ok acc
  | h :: rest, acc =>
    match resolveAddrs resolver h with
    | .error e => .error e
    | .ok addrs => buildCluster resolver rest (omInsert acc h (Server.new h addrs))

namespace Connection

/-- `Connection::set_config`: resolve the options and seed hosts from the
term (defaulting to `["localhost"]`), resolve each host to addresses, and
only then install the `Config` into the `CONFIG` registry.  All failures
happen before the insert, so an erring `set_config` leaves the registries
untouched. -/
def set_config (conn : Connection) (term : Term) (remote : Remote)
    (logger : Logger) (resolver : String → Except String (List SocketAddr))
    (st : RegState) : Except Error RegState :=
  match resolveOptions term.optargs Opts.defaultOpts [] with
  | .error e => .error e
  | .ok (opts, hosts0) =>
    match buildCluster resolver
        (if hosts0.isEmpty then ["localhost"] else hosts0) [] with
    | .error e => .error (.ioErr e)
    | .ok cluster =>
      .ok { st with
            config := omInsert st.config conn
              { cluster := cluster, opts := opts, remote := remote
                logger := logger } }

/-- `Connection::set_latency`: probe every server of the connection's
cluster in place; an internal error if the connection has no `Config`. -/
def set_latency (conn : Connection) (probe : SocketAddr → Option Duration)
    (st : RegState) : Except Error RegState :=
  match omLookup st.config conn with
  | none =>
    .error (.driverOther "conn.set_latency() called before setting configuration")
  | some _ =>
    .ok { st with
          config := omUpdate st.config conn (fun cfg =>
            { cfg with
              cluster := cfg.cluster.map
                (fun p => (p.1, Server.setLatency probe p.2)) }) }

/-- `Connection::set_pool`: insert the pool handle into `POOL`. -/
def set_pool (conn : Connection) (pool : Pool) (st : RegState) : RegState :=
  { st with pool := omInsert st.pool conn pool }

/-- `Connection::reset_cluster`: replace the connection's cluster map with
an empty one (a no-op when the connection has no `Config`). -/
def reset_cluster (conn : Connection) (st : RegState) : RegState :=
  { st with
    config := omUpdate st.config conn (fun cfg => { cfg with cluster := [] }) }

end Connection

/-- The effects and inputs `connect` interacts with, made explicit: the
client's possibly-errored term, the call arguments' term and runtime
handle, the system resolver, the latency probe, and the r2d2 pool
construction outcome. -/
structure ConnectEnv where
  clientErr : Option Error
  argTerm : Except Error Term
  remote : Option Remote
  logger : Logger
  resolver : String → Except String (List SocketAddr)
  probe : SocketAddr → Option Duration
  poolBuild : Except String Pool

/-- `connect`: propagate a prior client error; require the runtime handle;
`set_config` (registers `CONFIG`); `set_latency`; build the r2d2 pool
(failure here surfaces as an I/O error — with `CONFIG` already registered);
`set_pool` (registers `POOL`); then `maintain`, whose first synchronous
registry effect is `reset_cluster`.  Returns the result paired with the
final registry state. -/
def connect (env : ConnectEnv) (conn : Connection) (st : RegState) :
    Except Error Connection × RegState :=
  match env.clientErr with
  | some e => (.error e, st)
  | none =>
  match env.argTerm with
  | .error e => (.error e, st)
  | .ok aterm =>
  match env.remote with
  | none => (.error (.ioErr "a futures handle is required for `connect`"), st)
  | some remote =>
  match Connection.set_config conn aterm remote env.logger env.resolver st with
  | .error e => (.error e, st)
  | .ok st1 =>
  match Connection.set_latency conn env.probe st1 with
  | .error e => (.error e, st1)
  | .ok st2 =>
  match env.poolBuild with
  | .error e => (.error (.ioErr e), st2)
  | .ok pool =>
  let st3 := Connection.set_pool conn pool st2
  let st4 := Connection.reset_cluster conn st3
  (.ok conn, st4)

/-- What a successful `run` hands to the spawned worker and back to the
caller: the pool handle and `Config` snapshot it looked up, and the `done`
field of the freshly created `Response` (the channel is created only after
both lookups succeed). -/
structure RunDispatch where
  pool : Pool
  cfg : Config
  responseDone : Bool
deriving DecidableEq, Repr

namespace Client

/-- `Client::run`: propagate a prior client/argument error; a missing
connection in the call arguments is the user-facing "connection required"
error; an untracked connection in `POOL` is the "bug" error; a missing
`CONFIG` entry is an I/O error claiming a tokio handle is required.  Only
after all lookups succeed are the channel and `Response` created. -/
def run (clientTerm : Except Error Unit) (argTerm : Except Error Unit)
    (argPool : Option Connection) (st : RegState) :
    Except Error RunDispatch :=
  match clientTerm with
  | .error e => .error e
  | .ok _ =>
  match argTerm with
  | .error e => .error e
  | .ok _ =>
  match argPool with
  | none => .error (.driverOther "`run` requires a connection")
  | some conn =>
  match omLookup st.pool conn with
  | none => .error (.driverOther "bug: connection not in POOL")
  | some pool =>
  match omLookup st.config conn with
  | none => .error (.ioErr "a tokio handle is required")
  | some cfg => .ok { pool := pool, cfg := cfg, responseDone := false }

end Client

theorem isSome_omLookup_update {κ β : Type} [DecidableEq κ]
    (m : List (κ × β)) (k : κ) (f : β → β) :
    (omLookup (omUpdate m k f) k).isSome = (omLookup m k).isSome := by
  rw [omLookup_update]
  cases omLookup m k <;> rfl

theorem set_config_ok_shape (conn : Connection) (t : Term) (rem : Remote)
    (lg : Logger) (res : String → Except String (List SocketAddr))
    (st st₁ : RegState)
    (h : Connection.set_config conn t rem lg res st = .ok st₁) :
    (omLookup st₁.config conn).isSome = true ∧ st₁.pool = st.pool := by
  unfold Connection.set_config at h
  split at h
  · exact Except.noConfusion h
  · split at h
    · exact Except.noConfusion h
    · rw [Except.ok.injEq] at h
      subst h
      exact ⟨by rw [omLookup_insert]; rfl, rfl⟩

theorem set_latency_of_present (conn : Connection)
    (probe : SocketAddr → Option Duration) (st : RegState) (cfg : Config)
    (h : omLookup st.config conn = some cfg) :
    Connection.set_latency conn probe st =
      .ok { st with
            config := omUpdate st.config conn (fun c =>
              { c with
                cluster := c.cluster.map
                  (fun p => (p.1, Server.setLatency probe p.2)) }) } := by
  unfold Connection.set_latency
  rw [h]

/-- C1 amended: starting from registries without the fresh handle, `connect`
ends in exactly one of three situations: success with the handle in both
`CONFIG` and `POOL`; failure before `Config` registration with the handle in
neither registry; or an r2d2 pool-construction failure, after which the
handle's `CONFIG` entry is left visible with no matching `POOL` entry — so
`connect` is NOT atomic with respect to the pair of registries. -/
theorem connect_registry_consistency (env : ConnectEnv) (conn : Connection)
    (st : RegState) (hc : omLookup st.config conn = none)
    (hp : omLookup st.pool conn = none) :
    ((connect env conn st).1 = .ok conn ∧
      (omLookup (connect env conn st).2.config conn).isSome = true ∧
      (omLookup (connect env conn st).2.pool conn).isSome = true) ∨
    ((∃ e, (connect env conn st).1 = .error e) ∧
      omLookup (connect env conn st).2.config conn = none ∧
      omLookup (connect env conn st).2.pool conn = none) ∨
    ((∃ msg, env.poolBuild = .error msg ∧
        (connect env conn st).1 = .error (.ioErr msg)) ∧
      (omLookup (connect env conn st).2.config conn).isSome = true ∧
      omLookup (connect env conn st).2.pool conn = none) := by
  cases hce : env.clientErr with
  | some e =>
    have h : connect env conn st = (.error e, st) := by
      simp [connect, hce]
    rw [h]
    exact .inr (.inl ⟨⟨e, rfl⟩, hc, hp⟩)
  | none =>
  cases hat : env.argTerm with
  | error e =>
    have h : connect env conn st = (.error e, st) := by
      simp [connect, hce, hat]
    rw [h]
    exact .inr (.inl ⟨⟨e, rfl⟩, hc, hp⟩)
  | ok aterm =>
  cases hrem : env.remote with
  | none =>
    have h : connect env conn st =
        (.error (.ioErr "a futures handle is required for `connect`"), st) := by
      simp [connect, hce, hat, hrem]
    rw [h]
    exact .inr (.inl ⟨⟨_, rfl⟩, hc, hp⟩)
  | some rem =>
  cases hsc : Connection.set_config conn aterm rem env.logger env.resolver st with
  | error e =>
    have h : connect env conn st = (.error e, st) := by
      simp [connect, hce, hat, hrem, hsc]
    rw [h]
    exact .inr (.inl ⟨⟨e, rfl⟩, hc, hp⟩)
  | ok st1 =>
  obtain ⟨hs1, hp1⟩ :=
    set_config_ok_shape conn aterm rem env.logger env.resolver st st1 hsc
  obtain ⟨cfg1, hcfg1⟩ := Option.isSome_iff_exists.mp hs1
  cases hsl : Connection.set_latency conn env.probe st1 with
  | error e2 =>
    rw [set_latency_of_present conn env.probe st1 cfg1 hcfg1] at hsl
    exact Except.noConfusion hsl
  | ok st2 =>
  have hsl2 := set_latency_of_present conn env.probe st1 cfg1 hcfg1
  rw [hsl, Except.ok.injEq] at hsl2
  have hs2c : (omLookup st2.config conn).isSome = true := by
    rw [hsl2]
    show (omLookup (omUpdate st1.config conn _) conn).isSome = true
    rw [isSome_omLookup_update]
    exact hs1
  have hs2p : st2.pool = st.pool := by rw [hsl2]; exact hp1
  cases hpb : env.poolBuild with
  | error msg =>
    have h : connect env conn st = (.error (.ioErr msg), st2) := by
      simp [connect, hce, hat, hrem, hsc, hsl, hpb]
    rw [h]
    refine .inr (.inr ⟨⟨msg, rfl, rfl⟩, hs2c, ?_⟩)
    show omLookup st2.pool conn = none
    rw [hs2p]
    exact hp
  | ok pool =>
    have h : connect env conn st =
        (.ok conn,
          Connection.reset_cluster conn (Connection.set_pool conn pool st2)) := by
      simp [connect, hce, hat, hrem, hsc, hsl, hpb]
    rw [h]
    refine .inl ⟨rfl, ?_, ?_⟩
    · show (omLookup (omUpdate st2.config conn _) conn).isSome = true
      rw [isSome_omLookup_update]
      exact hs2c
    · show (omLookup (omInsert st2.pool conn pool) conn).isSome = true
      rw [omLookup_insert]
      rfl

/-- A well-formed `connect` environment whose r2d2 pool construction fails. -/
def envPoolFail : ConnectEnv :=
  { clientErr := none
    argTerm := .ok (Term.node none [] [])
    remote := some 0
    logger := 0
    resolver := fun _ => .ok [1]
    probe := fun _ => none
    poolBuild := .error "unable to initialize the connection pool" }

/-- C1 counterexample: when pool construction fails, `connect` returns an
error yet leaves the freshly allocated handle registered in `CONFIG` and
absent from `POOL` — a reader observes exactly one of the two registries
containing the handle, and the error path is not entry-free. -/
theorem connect_pool_failure_partial_registry :
    (connect envPoolFail 0 ⟨[], []⟩).1 =
      .error (.ioErr "unable to initialize the connection pool") ∧
    (omLookup (connect envPoolFail 0 ⟨[], []⟩).2.config 0).isSome = true ∧
    omLookup (connect envPoolFail 0 ⟨[], []⟩).2.pool 0 = none := by
  exact ⟨rfl, rfl, rfl⟩

/-- A fully successful `connect` environment. -/
def envOk : ConnectEnv :=
  { clientErr := none
    argTerm := .ok (Term.node none [] [])
    remote := some 0
    logger := 0
    resolver := fun _ => .ok [1]
    probe := fun _ => none
    poolBuild := .ok 7 }

/-- Witness for C1's amended theorem at a concrete environment and empty
initial registries. -/
theorem connect_registry_consistency_spot :
    ((connect envOk 0 ⟨[], []⟩).1 = .ok 0 ∧
      (omLookup (connect envOk 0 ⟨[], []⟩).2.config 0).isSome = true ∧
      (omLookup (connect envOk 0 ⟨[], []⟩).2.pool 0).isSome = true) ∨
    ((∃ e, (connect envOk 0 ⟨[], []⟩).1 = .error e) ∧
      omLookup (connect envOk 0 ⟨[], []⟩).2.config 0 = none ∧
      omLookup (connect envOk 0 ⟨[], []⟩).2.pool 0 = none) ∨
    ((∃ msg, envOk.poolBuild = .error msg ∧
        (connect envOk 0 ⟨[], []⟩).1 = .error (.ioErr msg)) ∧
      (omLookup (connect envOk 0 ⟨[], []⟩).2.config 0).isSome = true ∧
      omLookup (connect envOk 0 ⟨[], []⟩).2.pool 0 = none) :=
  connect_registry_consistency envOk 0 ⟨[], []⟩ rfl rfl

/-- C9: `Connection::maintain`'s first action, `reset_cluster`, replaces the
connection's cluster store with the empty map while leaving the `Config`'s
opts, runtime handle and logger fields — and every other registry entry —
unchanged; a connection with no `Config` entry is left alone entirely. -/
theorem maintain_resets_cluster (conn : Connection) (st : RegState)
    (cfg : Config) (h : omLookup st.config conn = some cfg) :
    omLookup (Connection.reset_cluster conn st).config conn =
      some { cluster := [], opts := cfg.opts, remote := cfg.remote
             logger := cfg.logger } ∧
    (Connection.reset_cluster conn st).pool = st.pool ∧
    (∀ c', c' ≠ conn →
      omLookup (Connection.reset_cluster conn st).config c' =
        omLookup st.config c') := by
  refine ⟨?_, rfl, fun c' hne => omLookup_update_ne _ _ _ _ hne⟩
  show omLookup (omUpdate st.config conn _) conn = _
  rw [omLookup_update, h]
  rfl

/-- Witness for C9 at a concrete registry: seed servers and their probed
latencies are discarded, the other `Config` fields survive. -/
theorem maintain_resets_cluster_spot :
    omLookup (Connection.reset_cluster 1
      ⟨[(1, { cluster := [("h", Server.new "h" [3])]
              opts := Opts.defaultOpts, remote := 4, logger := 5 })],
       [(1, 2)]⟩).config 1 =
      some { cluster := [], opts := Opts.defaultOpts, remote := 4
             logger := 5 } ∧
    (Connection.reset_cluster 1
      ⟨[(1, { cluster := [("h", Server.new "h" [3])]
              opts := Opts.defaultOpts, remote := 4, logger := 5 })],
       [(1, 2)]⟩).pool = [(1, 2)] := by
  have h := maintain_resets_cluster 1
    ⟨[(1, { cluster := [("h", Server.new "h" [3])]
            opts := Opts.defaultOpts, remote := 4, logger := 5 })],
     [(1, 2)]⟩
    { cluster := [("h", Server.new "h" [3])]
      opts := Opts.defaultOpts, remote := 4, logger := 5 } rfl
  exact ⟨h.1, h.2.1⟩

/-- C3 counterexample: with the connection present in `POOL` but absent from
`CONFIG`, `run` does not return the internal-consistency "bug" error the
claim promises — it returns an I/O error reading "a tokio handle is
required", a different error value. -/
theorem run_config_miss_not_bug_error :
    Client.run (.ok ()) (.ok ()) (some 5) ⟨[], [(5, 99)]⟩ =
      .error (.ioErr "a tokio handle is required") ∧
    Error.ioErr "a tokio handle is required" ≠
      Error.driverOther "bug: connection not in POOL" := by
  exact ⟨rfl, by decide⟩

/-- C3 amended: `run` with no connection in the call arguments fails
synchronously with the user-facing "connection required" error, before any
channel or stream exists; a connection missing from `POOL` yields the
internal "bug: connection not in POOL" error; a connection present in
`POOL` but missing from `CONFIG` yields an I/O error ("a tokio handle is
required") rather than a "bug"-labelled one; only when both lookups succeed
is the dispatch created, with the `Response`'s `done` field false. -/
theorem run_error_taxonomy (st : RegState) (conn : Connection) :
    Client.run (.ok ()) (.ok ()) none st =
      .error (.driverOther "`run` requires a connection") ∧
    (omLookup st.pool conn = none →
      Client.run (.ok ()) (.ok ()) (some conn) st =
        .error (.driverOther "bug: connection not in POOL")) ∧
    (∀ pool, omLookup st.pool conn = some pool →
      omLookup st.config conn = none →
      Client.run (.ok ()) (.ok ()) (some conn) st =
        .error (.ioErr "a tokio handle is required")) ∧
    (∀ pool cfg, omLookup st.pool conn = some pool →
      omLookup st.config conn = some cfg →
      Client.run (.ok ()) (.ok ()) (some conn) st =
        .ok { pool := pool, cfg := cfg, responseDone := false }) := by
  refine ⟨rfl, ?_, ?_, ?_⟩
  · intro h
    simp [Client.run, h]
  · intro pool h1 h2
    simp [Client.run, h1, h2]
  · intro pool cfg h1 h2
    simp [Client.run, h1, h2]

/-- Witness for C3's amended theorem across the three registry situations. -/
theorem run_error_taxonomy_spot :
    Client.run (.ok ()) (.ok ()) none (⟨[], []⟩ : RegState) =
      .error (.driverOther "`run` requires a connection") ∧
    Client.run (.ok ()) (.ok ()) (some 1) (⟨[], []⟩ : RegState) =
      .error (.driverOther "bug: connection not in POOL") ∧
    Client.run (.ok ()) (.ok ()) (some 1) (⟨[], [(1, 9)]⟩ : RegState) =
      .error (.ioErr "a tokio handle is required") ∧
    Client.run (.ok ()) (.ok ()) (some 1)
        (⟨[(1, { cluster := [], opts := Opts.defaultOpts, remote := 0
                 logger := 0 })], [(1, 9)]⟩ : RegState) =
      .ok { pool := 9
            cfg := { cluster := [], opts := Opts.defaultOpts, remote := 0
                     logger := 0 }
            responseDone := false } := by
  refine ⟨(run_error_taxonomy ⟨[], []⟩ 1).1, ?_, ?_, ?_⟩
  · exact (run_error_taxonomy ⟨[], []⟩ 1).2.1 rfl
  · exact (run_error_taxonomy ⟨[], [(1, 9)]⟩ 1).2.2.1 9 rfl rfl
  · exact (run_error_taxonomy
      ⟨[(1, { cluster := [], opts := Opts.defaultOpts, remote := 0
              logger := 0 })], [(1, 9)]⟩ 1).2.2.2 9
      { cluster := [], opts := Opts.defaultOpts, remote := 0, logger := 0 }
      rfl rfl

/-- A `connect` environment passing a boolean datum as the `db` option. -/
def envBoolDb : ConnectEnv :=
  { clientErr := none
    argTerm := .ok (Term.node none []
      [("db", Term.node (some { dtype := .R_BOOL, r_bool := true }) [] [])])
    remote := some 0
    logger := 0
    resolver := fun _ => .ok [1]
    probe := fun _ => none
    poolBuild := .ok 7 }

/-- C6 counterexample: `connect` given a boolean value for the `db` option
succeeds — no configuration error naming `db` is returned — and the
boolean datum's unset `r_str` field is silently installed as the database
name (the empty string). -/
theorem connect_wrong_typed_option_accepted :
    (connect envBoolDb 5 ⟨[], []⟩).1 = .ok 5 ∧
    ((omLookup (connect envBoolDb 5 ⟨[], []⟩).2.config 5).map
      (fun cfg => cfg.opts.db)) = some "" := by
  exact ⟨rfl, rfl⟩

/-- C6 amended: `take_string`/`take_bool` return the protobuf field value
of the first datum whatever its actual type tag (the field's default `""` /
`false` when unset); the error naming the offending key is produced only
when the option's value holds no datum at all. -/
theorem take_scalar_only_errors_on_empty (key : String) (d : Datum)
    (rest : List Datum) :
    take_string key (d :: rest) = .ok d.r_str ∧
    take_bool key (d :: rest) = .ok d.r_bool ∧
    take_string key [] =
      .error (.driverOther ("`" ++ key ++ "` must be a string")) ∧
    take_bool key [] =
      .error (.driverOther ("`" ++ key ++ "` must be a boolean")) := by
  exact ⟨rfl, rfl, rfl, rfl⟩
